import Mathlib

/-!
Verification of the reservation availability & booking engine of the
La Jardinerie website: the Supabase edge functions
(`supabase/functions/availability/index.ts` and the `POST /book` handler)
and the `book_reservation` SQL routine of the embedded Supabase schema
(`src/tailwind.config.mjs`, after the document separator, lines 255-340).

Modelling conventions:
* instants are measured in minutes; a calendar date is a day index `d`
  whose local midnight is minute `1440 * d`;
* the weekday of day `d` is `d % 7` (a fixed epoch convention; the code's
  `date.getDay()` differs only by a constant offset, which no claim
  depends on);
* the database is a `Store` value; the edge functions' SELECT queries are
  modelled as state-passing functions `Store → α × Store`;
* the JS `while` loops are translated as fuel-indexed recursions; the fuel
  `lastT + 1 - cur` bounds the iteration count exactly whenever
  `slot_interval ≥ 1`, the only case in which the JS loop terminates.
-/

namespace LaJardinerie

/-- A row of `service_windows` (interface `ServiceWindow`,
`availability/index.ts` lines 35-47); times of day in minutes. -/
structure ServiceWindow where
  name : String
  display_name : String
  dow : Nat
  start_time : Nat
  end_time : Nat
  last_reservation_time : Nat
  capacity : Nat
  slot_interval : Nat
  meal_duration : Nat
  is_active : Bool
deriving DecidableEq

/-- A row of `reservations` as selected by the availability handler
(lines 165-170): `id, start_at, end_at, guests, status, service_name`,
with `start_at`/`end_at` as absolute minutes. -/
structure Reservation where
  service_name : String
  start_at : Nat
  end_at : Nat
  guests : Nat
  status : String
deriving DecidableEq

/-- One emitted slot (lines 224-227). `available_capacity` is an `Int`
because the JS subtraction `sw.capacity - capacityTaken` can go negative. -/
structure Slot where
  start_at : Nat
  available_capacity : Int
deriving DecidableEq

/-- One entry of the response's `services` array (lines 233-237). -/
structure ServiceAvail where
  name : String
  display_name : String
  slots : List Slot
deriving DecidableEq

/-- The database state visible to the two edge functions: the `closures`,
`service_windows` and `reservations` tables. -/
structure Store where
  closures : List Nat
  service_windows : List ServiceWindow
  reservations : List Reservation
deriving DecidableEq

/-- The availability response body (lines 123-134, 148-159, 240-248). -/
structure AvailResponse where
  date : Nat
  services : List ServiceAvail
  message : Option String
deriving DecidableEq

/-- The `capacityTaken` accumulation loop (lines 207-219): guests of every
reservation of the same service whose `[start_at, end_at)` interval
overlaps `[slotStart, slotEnd)` under `resStart < slotEnd && resEnd >
slotStart`.  The status filter already happened in the SELECT. -/
def capacityTaken (swName : String) (slotStart slotEnd : Nat) :
    List Reservation → Nat
  | [] => 0
  | r :: rs =>
    (if r.service_name = swName ∧ r.start_at < slotEnd ∧ r.end_at > slotStart
      then r.guests else 0)
    + capacityTaken swName slotStart slotEnd rs

/-- `sw.capacity - capacityTaken` for candidate start `s` (line 221). -/
def availAt (sw : ServiceWindow) (rs : List Reservation) (s : Nat) : Int :=
  (sw.capacity : Int) - (capacityTaken sw.name s (s + sw.meal_duration) rs : Int)

/-- The body of one iteration of the slot loop as far as it touches the
`slots` array (lines 203-228): push the slot iff `availableCapacity >=
guests`. -/
def emitSlot (sw : ServiceWindow) (guests : Nat) (rs : List Reservation)
    (s : Nat) : Option Slot :=
  if (guests : Int) ≤ availAt sw rs s then some ⟨s, availAt sw rs s⟩ else none

/-- The main generation loop `while (currentTime <= lastTime)`
(lines 202-231), fuel-indexed. -/
def slotsLoop (sw : ServiceWindow) (guests : Nat) (rs : List Reservation) :
    Nat → Nat → Nat → List Slot
  | 0, _, _ => []
  | fuel + 1, cur, lastT =>
    if cur ≤ lastT then
      (match emitSlot sw guests rs cur with
        | some slot => [slot]
        | none => [])
      ++ slotsLoop sw guests rs fuel (cur + sw.slot_interval) lastT
    else []

/-- The candidate starts visited by the same loop, i.e. the successive
values of `currentTime` that pass the `<= lastTime` test. -/
def candidates (interval : Nat) : Nat → Nat → Nat → List Nat
  | 0, _, _ => []
  | fuel + 1, cur, lastT =>
    if cur ≤ lastT then cur :: candidates interval fuel (cur + interval) lastT
    else []

/-- The today-buffer skip loop `while (currentTime < now && currentTime <=
lastTime)` (lines 192-200), where `cutoff` is `now` after
`setHours(getHours()+1)`, i.e. the physical now plus 60 minutes. -/
def skipLoop (interval : Nat) : Nat → Nat → Nat → Nat → Nat
  | 0, cur, _, _ => cur
  | fuel + 1, cur, cutoff, lastT =>
    if cur < cutoff ∧ cur ≤ lastT
      then skipLoop interval fuel (cur + interval) cutoff lastT
    else cur

/-- First value of `currentTime` that reaches the generation loop for
window `sw` on day `date` (lines 186-200). -/
def firstCandidate (sw : ServiceWindow) (date today now : Nat) : Nat :=
  let startAbs := 1440 * date + sw.start_time
  let lastAbs := 1440 * date + sw.last_reservation_time
  if date = today
    then skipLoop sw.slot_interval (lastAbs + 1 - startAbs) startAbs (now + 60) lastAbs
  else startAbs

/-- All candidate slot starts the generation loop visits for window `sw`
on day `date`. -/
def windowCands (sw : ServiceWindow) (date today now : Nat) : List Nat :=
  let lastAbs := 1440 * date + sw.last_reservation_time
  let first := firstCandidate sw date today now
  candidates sw.slot_interval (lastAbs + 1 - first) first lastAbs

/-- The per-window body of the `for (const sw of serviceWindows)` loop
(lines 179-238). -/
def windowService (date today now guests : Nat) (rs : List Reservation)
    (sw : ServiceWindow) : ServiceAvail :=
  let lastAbs := 1440 * date + sw.last_reservation_time
  let first := firstCandidate sw date today now
  { name := sw.name
    display_name := sw.display_name
    slots := slotsLoop sw guests rs (lastAbs + 1 - first) first lastAbs }

/-- Ordering used by the `order("start_time")` clause of the
`service_windows` query (line 142). -/
def swLE (a b : ServiceWindow) : Prop := a.start_time ≤ b.start_time

instance : DecidableRel swLE := fun a b =>
  inferInstanceAs (Decidable (a.start_time ≤ b.start_time))

instance : IsTotal ServiceWindow swLE := ⟨fun a b => Nat.le_total a.start_time b.start_time⟩

instance : IsTrans ServiceWindow swLE := ⟨fun _ _ _ h h' => Nat.le_trans h h'⟩

/-- The filter of the `service_windows` query (lines 137-142):
`dow = date's weekday` and `is_active = true`. -/
def matchingFilter (st : Store) (date : Nat) : List ServiceWindow :=
  st.service_windows.filter (fun w => w.dow == date % 7 && w.is_active)

/-- The closures SELECT (lines 117-121): does a closure row exist for
`date`?  Reads the store and leaves it unchanged. -/
def dbSelectClosureExists (date : Nat) (st : Store) : Bool × Store :=
  (st.closures.contains date, st)

/-- The service-windows SELECT with `order("start_time")` (lines 137-142).
Reads the store and leaves it unchanged; the ORDER BY is modelled by a
stable insertion sort on `start_time`. -/
def dbSelectWindows (date : Nat) (st : Store) : List ServiceWindow × Store :=
  (List.insertionSort swLE (matchingFilter st date), st)

/-- The reservations SELECT (lines 161-170): `start_at` between the day's
`T00:00:00` and `T23:59:59` and `status = confirmed`.  Reads the store and
leaves it unchanged. -/
def dbSelectDayReservations (date : Nat) (st : Store) : List Reservation × Store :=
  (st.reservations.filter (fun r =>
      1440 * date ≤ r.start_at && r.start_at ≤ 1440 * date + 1439
        && r.status == "confirmed"), st)

/-- The availability handler after parameter validation (lines 113-248),
with the database threaded explicitly: closure check, service-window
lookup, reservation snapshot, slot computation. -/
def availabilityCall (date today now guests : Nat) (st : Store) :
    AvailResponse × Store :=
  let (closed, st1) := dbSelectClosureExists date st
  if closed then
    ({ date := date, services := [], message := some "Restaurant fermé cette date" }, st1)
  else
    let (sws, st2) := dbSelectWindows date st1
    if sws.isEmpty then
      ({ date := date, services := [], message := some "Restaurant fermé ce jour" }, st2)
    else
      let (rs, st3) := dbSelectDayReservations date st2
      ({ date := date
         services := sws.map (windowService date today now guests rs)
         message := none }, st3)

/-- The availability response alone. -/
def computeAvailability (date today now guests : Nat) (st : Store) : AvailResponse :=
  (availabilityCall date today now guests st).1

/-! ### The `POST /book` handler (`src/unnamed/part_000`) -/

/-- Characters stripped by `phone.replace(/[\s\-\.]/g, "")` (line 135):
ASCII whitespace, dash, dot.  (JS `\s` also matches some Unicode spaces;
only the ASCII part is modelled.) -/
def strippedChar (c : Char) : Bool :=
  c = ' ' || c = '\t' || c = '\n' || c = '\r' || c = '\x0b' || c = '\x0c'
    || c = '-' || c = '.'

/-- The phone normalization `phone.replace(/[\s\-\.]/g, "")` (line 135). -/
def phoneNormalize (s : String) : String :=
  String.mk (s.data.filter (fun c => !strippedChar c))

/-- A character of the class `[^\s@]` from the email regex (line 147). -/
def emailAtomChar (c : Char) : Bool :=
  !(c = '@' || c = ' ' || c = '\t' || c = '\n' || c = '\r' || c = '\x0b' || c = '\x0c')

/-- The email test `/^[^\s@]+@[^\s@]+\.[^\s@]+$/.test(email)` (line 147):
exactly one `@`, a nonempty atom before it, and after it a dot with a
nonempty atom run on each side (a dot in an interior position). -/
def emailMatches (s : String) : Bool :=
  match s.splitOn "@" with
  | [a, b] =>
    a ≠ "" && a.data.all emailAtomChar && b.data.all emailAtomChar
      && ((b.data.drop 1).dropLast.contains '.')
  | _ => false

/-- The booking request body (interface `BookingRequest`, lines 36-44).
`start_at_parsed` abstracts `new Date(start_at)`: the parsed instant in
minutes, or `none` when the string does not parse (`isNaN` path). -/
structure BookingRequest where
  start_at : String
  start_at_parsed : Option Int
  service_name : String
  guests : Int
  name : String
  phone : String
  email : Option String
  notes : Option String
deriving DecidableEq

/-- The arguments handed to `supabase.rpc("book_reservation", …)`
(lines 163-171). -/
structure RpcArgs where
  p_service_name : String
  p_start_at : String
  p_guests : Int
  p_name : String
  p_phone : String
  p_email : Option String
  p_notes : Option String
deriving DecidableEq

/-- Outcome of the validation sequence of the book handler: either an
early return with an error body and HTTP status, or the argument record
for the `book_reservation` RPC.  A `reject` is produced before the RPC is
invoked, so it carries no database effect. -/
inductive ValidationResult where
  | reject (error : String) (status : Nat)
  | proceed (args : RpcArgs)
deriving DecidableEq

/-- Observation helper: the `p_phone` argument a validation outcome hands
to the RPC, if it proceeds. -/
def proceedPhone : ValidationResult → Option String
  | .proceed args => some args.p_phone
  | .reject _ _ => none

/-- JS `x?.trim() || null` for an optional string field (lines 169-170). -/
def trimOrNull (o : Option String) : Option String :=
  match o with
  | none => none
  | some s => if s.trim = "" then none else some s.trim

/-- The validation sequence of the book handler (lines 63-171), up to the
RPC call.  `now` is the current instant in minutes; the 30-day horizon is
`30 * 1440 = 43200` minutes.  JS truthiness: a string is falsy iff empty,
`guests` is falsy iff `0`. -/
def validateBooking (now : Int) (req : BookingRequest) : ValidationResult :=
  if req.start_at = "" ∨ req.service_name = "" ∨ req.guests = 0
      ∨ req.name = "" ∨ req.phone = "" then
    .reject "Champs requis manquants" 400
  else if ¬(req.service_name = "midi" ∨ req.service_name = "soir") then
    .reject "Service invalide" 400
  else if req.guests < 1 ∨ req.guests > 20 then
    .reject "Nombre de couverts invalide (1-20)" 400
  else
    match req.start_at_parsed with
    | none => .reject "Date invalide" 400
    | some startDate =>
      if startDate < now then
        .reject "Impossible de réserver dans le passé" 400
      else if startDate > now + 43200 then
        .reject "Réservation limitée à 30 jours à l\x27avance" 400
      else if (phoneNormalize req.phone).length < 10 then
        .reject "Numéro de téléphone invalide" 400
      else if (match req.email with
               | some e => e ≠ "" && !emailMatches e
               | none => false) then
        .reject "Email invalide" 400
      else
        .proceed
          { p_service_name := req.service_name
            p_start_at := req.start_at
            p_guests := req.guests
            p_name := req.name.trim
            p_phone := phoneNormalize req.phone
            p_email := trimOrNull req.email
            p_notes := trimOrNull req.notes }

/-- Whether a request clears every validation placed before the phone
check (lines 63-132): required fields, service name, guest range, date
parse, not in the past, within the 30-day horizon. -/
def prePhoneChecksPass (now : Int) (req : BookingRequest) : Prop :=
  ¬(req.start_at = "" ∨ req.service_name = "" ∨ req.guests = 0
      ∨ req.name = "" ∨ req.phone = "")
  ∧ (req.service_name = "midi" ∨ req.service_name = "soir")
  ∧ ¬(req.guests < 1 ∨ req.guests > 20)
  ∧ ∃ startDate, req.start_at_parsed = some startDate
      ∧ ¬startDate < now ∧ ¬startDate > now + 43200

instance (now : Int) (req : BookingRequest) : Decidable (prePhoneChecksPass now req) := by
  unfold prePhoneChecksPass
  exact inferInstance

/-- One row of the array returned by the `book_reservation` RPC
(lines 184-198). -/
structure RpcRow where
  ok : Bool
  code : String
  reservation_id : String
  error : Option String
deriving DecidableEq

/-- The response body of the book handler together with its HTTP status. -/
structure BookResponse where
  ok : Bool
  code : Option String
  reservation_id : Option String
  error : Option String
  status : Nat
deriving DecidableEq

/-- Server-side state after the RPC has committed: the bookings ledger and
the server log. -/
structure BookState where
  bookings : List Reservation
  log : List String
deriving DecidableEq

/-- The tail of the book handler once the RPC has returned a row
(lines 185-227): reject when `!result.ok`; otherwise attempt the
confirmation email when an address and API key are present — a dispatch
failure (`emailFails`) is caught, logged via `console.error`, and the
success response is built afterwards from `result.code` and
`result.reservation_id` either way.  The committed ledger is not
touched. -/
def finishBooking (result : RpcRow) (emailProvided hasApiKey emailFails : Bool)
    (st : BookState) : BookResponse × BookState :=
  if ¬result.ok then
    ({ ok := false, code := none, reservation_id := none
       error := some (result.error.getD "Réservation impossible"), status := 400 }, st)
  else
    let st' :=
      if emailProvided && hasApiKey && emailFails
        then { st with log := st.log ++ ["Email sending failed"] }
      else st
    ({ ok := true, code := some result.code
       reservation_id := some result.reservation_id
       error := none, status := 200 }, st')

/-! ### Occupancy sums, in the words of the spec -/

/-- Sum of `party_size` (`guests`) over all `confirmed` bookings of
service `sname` whose `[start_at, end_at)` interval overlaps `[lo, hi)`
under the half-open overlap `a.start < b.end && a.end > b.start`
(spec §4.1 step 5). -/
def specOccupied (sname : String) (lo hi : Nat) : List Reservation → Nat
  | [] => 0
  | b :: bs =>
    (if b.status = "confirmed" ∧ b.service_name = sname
        ∧ b.start_at < hi ∧ lo < b.end_at
      then b.guests else 0)
    + specOccupied sname lo hi bs

/-- Sum of `party_size` over all `confirmed` bookings of service `sname`
whose `[start_at, end_at)` interval contains the instant `t`
(spec §3, Booking invariant). -/
def specOccupiedAt (sname : String) (t : Nat) : List Reservation → Nat
  | [] => 0
  | b :: bs =>
    (if b.status = "confirmed" ∧ b.service_name = sname
        ∧ b.start_at ≤ t ∧ t < b.end_at
      then b.guests else 0)
    + specOccupiedAt sname t bs

/-! ### The `book_reservation` SQL routine
(`src/tailwind.config.mjs`, embedded Supabase schema, lines 255-340) -/

/-- The row type returned by `book_reservation`:
`TABLE(ok BOOLEAN, code TEXT, reservation_id UUID, error TEXT)`
(schema lines 264-268), with SQL NULLs as `none`. -/
structure BookingRow where
  ok : Bool
  code : Option String
  reservation_id : Option String
  error : Option String
deriving DecidableEq

/-- The `is_date_closed` SQL function (schema lines 226-231): does a
closures row exist for the date? -/
def is_date_closed (closures : List Nat) (check_date : Nat) : Bool :=
  closures.contains check_date

/-- The `get_capacity_taken` SQL function (schema lines 234-252):
`COALESCE(SUM(guests), 0)` over reservations with
`service_name = p_service_name`, `status = 'confirmed'`,
`start_at < p_end_at` and `end_at > p_start_at`. -/
def get_capacity_taken (p_service_name : String) (p_start_at p_end_at : Nat) :
    List Reservation → Nat
  | [] => 0
  | r :: rs =>
    (if r.service_name = p_service_name ∧ r.status = "confirmed"
        ∧ r.start_at < p_end_at ∧ r.end_at > p_start_at
      then r.guests else 0)
    + get_capacity_taken p_service_name p_start_at p_end_at rs

/-- The `book_reservation` SQL routine (schema lines 255-340): extract
the date, weekday and time of day of `p_start_at`; reject a closed date,
a missing active window for `(p_service_name, dow)`, and a time of day
outside `[start_time, last_reservation_time]`, each with the routine's
message; then, under the advisory lock
`pg_advisory_xact_lock(hashtext(v_date || p_service_name))`
(schema lines 315-316) that serializes commits per `(date, service_name)`,
re-check capacity with `get_capacity_taken` and either reject with
`Capacité insuffisante pour ce créneau` or insert the booking with status
`confirmed`.
Conventions: time is in minutes, so the casts `::DATE`, `::TIME` and
`EXTRACT(DOW)` become `/ 1440`, `% 1440` and the day index modulo 7 — the
same weekday convention as the availability embedding.  `v_code` and
`v_reservation_id` stand for the outputs of the random
`generate_reservation_code()` retry loop (schema lines 328-332) and of
the UUID column default, which a pure embedding takes as environment
inputs; the contact columns filled from `p_name`/`p_phone`/`p_email`/
`p_notes` are omitted together with them, the stored row being modelled
by the capacity-relevant projection `Reservation` that the availability
handler also selects.  The lock is what justifies executing commits for
one key as a sequence (`runCommits`). -/
def book_reservation (p_service_name : String) (p_start_at p_guests : Nat)
    (v_code v_reservation_id : String) (st : Store) : BookingRow × Store :=
  let v_date := p_start_at / 1440
  let v_dow := v_date % 7
  let v_time := p_start_at % 1440
  if is_date_closed st.closures v_date then
    ({ ok := false, code := none, reservation_id := none
       error := some "Restaurant fermé cette date" }, st)
  else
    match st.service_windows.find?
        (fun w => w.name == p_service_name && w.dow == v_dow && w.is_active) with
    | none =>
      ({ ok := false, code := none, reservation_id := none
         error := some "Service non disponible ce jour" }, st)
    | some v_service_window =>
      if v_time < v_service_window.start_time
          ∨ v_time > v_service_window.last_reservation_time then
        ({ ok := false, code := none, reservation_id := none
           error := some "Créneau non disponible" }, st)
      else
        let v_end_at := p_start_at + v_service_window.meal_duration
        let v_capacity := v_service_window.capacity
        let v_taken :=
          get_capacity_taken p_service_name p_start_at v_end_at st.reservations
        if v_taken + p_guests > v_capacity then
          ({ ok := false, code := none, reservation_id := none
             error := some "Capacité insuffisante pour ce créneau" }, st)
        else
          ({ ok := true, code := some v_code
             reservation_id := some v_reservation_id, error := none },
           { st with reservations :=
              { service_name := p_service_name, start_at := p_start_at
                end_at := v_end_at, guests := p_guests
                status := "confirmed" } :: st.reservations })

/-- One commit attempt for a fixed service: the RPC arguments that vary,
plus the environment-chosen code and row id. -/
structure CommitAttempt where
  p_start_at : Nat
  p_guests : Nat
  v_code : String
  v_reservation_id : String
deriving DecidableEq

/-- Because `pg_advisory_xact_lock` serializes `book_reservation`
executions for one `(date, service_name)` key, a set of concurrent
attempts for that key executes as some sequence; `runCommits` folds such
a sequence over the store. -/
def runCommits (sname : String) (attempts : List CommitAttempt) (st : Store) :
    Store :=
  attempts.foldl
    (fun s a =>
      (book_reservation sname a.p_start_at a.p_guests a.v_code
        a.v_reservation_id s).2)
    st

/-! ### Concrete example data for evaluations -/

/-- A dinner window: 19:00-22:00, last booking 20:30, capacity 10,
30-minute slots, 60-minute meals, active on weekday 0. -/
def exampleWindow : ServiceWindow :=
  { name := "soir", display_name := "Dîner", dow := 0, start_time := 1140
    end_time := 1320, last_reservation_time := 1230, capacity := 10
    slot_interval := 30, meal_duration := 60, is_active := true }

/-- The same window on weekday 1. -/
def exampleWindowMon : ServiceWindow :=
  { exampleWindow with dow := 1 }

/-- A lunch window on weekday 0: 12:00-15:00, last booking 13:30,
capacity 2, 30-minute slots, 90-minute meals. -/
def exampleWindowMidi : ServiceWindow :=
  { name := "midi", display_name := "Déjeuner", dow := 0, start_time := 720
    end_time := 900, last_reservation_time := 810, capacity := 2
    slot_interval := 30, meal_duration := 90, is_active := true }

/-- A confirmed dinner booking 19:00-20:00 for 2 on day 0. -/
def exampleReservation : Reservation :=
  { service_name := "soir", start_at := 1140, end_at := 1200, guests := 2
    status := "confirmed" }

/-- A confirmed dinner booking 19:00-21:30 for 10 on day 0, filling the
dinner window completely. -/
def fullReservation : Reservation :=
  { service_name := "soir", start_at := 1140, end_at := 1290, guests := 10
    status := "confirmed" }

/-- Store with the dinner window and the 19:00-20:00 booking. -/
def exampleStore : Store :=
  { closures := [], service_windows := [exampleWindow]
    reservations := [exampleReservation] }

/-- Store with the weekday-1 dinner window and no bookings. -/
def exampleStoreMon : Store :=
  { closures := [], service_windows := [exampleWindowMon], reservations := [] }

/-- Store listing dinner before lunch and holding the full booking. -/
def exampleStoreTwo : Store :=
  { closures := [], service_windows := [exampleWindow, exampleWindowMidi]
    reservations := [fullReservation] }

/-- Store with the weekday-0 dinner window at capacity 4 and an empty
ledger: remaining capacity 4 for every dinner slot of day 0. -/
def capFourStore : Store :=
  { closures := []
    service_windows := [{ exampleWindow with capacity := 4 }]
    reservations := [] }

/-- A booking request whose normalized phone is ten letters: no digit at
all, yet ten characters long. -/
def exampleRequest : BookingRequest :=
  { start_at := "2026-10-20T19:00:00", start_at_parsed := some 1000
    service_name := "midi", guests := 2, name := "Alice"
    phone := "aaaaaaaaaa", email := none, notes := none }

/-- The same request with a phone that normalizes to six characters. -/
def shortPhoneRequest : BookingRequest :=
  { exampleRequest with phone := "06 12 34" }

/-- A successful RPC row. -/
def exampleRpcRow : RpcRow :=
  { ok := true, code := "ABC234", reservation_id := "r1", error := none }

/-- A server state holding one committed booking. -/
def exampleBookState : BookState :=
  { bookings := [exampleReservation], log := [] }

/-! ### Lemmas about the loops -/

/-- The generation loop emits exactly the capacity filter applied to the
candidate starts it visits. -/
theorem slotsLoop_eq_filterMap (sw : ServiceWindow) (g : Nat)
    (rs : List Reservation) (fuel cur lastT : Nat) :
    slotsLoop sw g rs fuel cur lastT
      = (candidates sw.slot_interval fuel cur lastT).filterMap (emitSlot sw g rs) := by
  induction fuel generalizing cur with
  | zero => rfl
  | succ fuel ih =>
    simp only [slotsLoop, candidates]
    by_cases h : cur ≤ lastT
    · simp only [if_pos h, List.filterMap_cons, ih]
      cases hemit : emitSlot sw g rs cur <;> simp [hemit]
    · simp [if_neg h]

/-- With positive interval and enough fuel, the candidate list is exactly
the arithmetic progression from `cur` capped at `lastT`. -/
theorem mem_candidates {i : Nat} (hi : 0 < i) :
    ∀ {fuel cur lastT s : Nat}, lastT + 1 - cur ≤ fuel →
      (s ∈ candidates i fuel cur lastT ↔ (∃ k, s = cur + k * i) ∧ s ≤ lastT) := by
  intro fuel
  induction fuel with
  | zero =>
    intro cur lastT s hfuel
    simp only [candidates, List.not_mem_nil, false_iff]
    rintro ⟨⟨k, rfl⟩, hs⟩
    have : 0 ≤ k * i := Nat.zero_le _
    omega
  | succ fuel ih =>
    intro cur lastT s hfuel
    simp only [candidates]
    by_cases h : cur ≤ lastT
    · rw [if_pos h, List.mem_cons, ih (by omega)]
      constructor
      · rintro (rfl | ⟨⟨k, rfl⟩, hs⟩)
        · exact ⟨⟨0, by omega⟩, h⟩
        · exact ⟨⟨k + 1, by ring⟩, hs⟩
      · rintro ⟨⟨k, rfl⟩, hs⟩
        cases k with
        | zero => left; omega
        | succ k => right; exact ⟨⟨k, by ring⟩, hs⟩
    · rw [if_neg h]
      simp only [List.not_mem_nil, false_iff]
      rintro ⟨⟨k, rfl⟩, hs⟩
      have : 0 ≤ k * i := Nat.zero_le _
      omega

/-- The skip loop only moves forward along the `slot_interval` grid. -/
theorem skipLoop_grid (i : Nat) :
    ∀ fuel cur cutoff lastT, ∃ k, skipLoop i fuel cur cutoff lastT = cur + k * i := by
  intro fuel
  induction fuel with
  | zero => intro cur cutoff lastT; exact ⟨0, by simp [skipLoop]⟩
  | succ fuel ih =>
    intro cur cutoff lastT
    simp only [skipLoop]
    by_cases h : cur < cutoff ∧ cur ≤ lastT
    · rw [if_pos h]
      obtain ⟨k, hk⟩ := ih (cur + i) cutoff lastT
      exact ⟨k + 1, by rw [hk]; ring⟩
    · rw [if_neg h]; exact ⟨0, by omega⟩

/-- With enough fuel the skip loop stops only past the cutoff or past the
last admissible start. -/
theorem skipLoop_exit {i : Nat} (hi : 0 < i) :
    ∀ (fuel cur cutoff lastT : Nat), lastT + 1 - cur ≤ fuel →
      cutoff ≤ skipLoop i fuel cur cutoff lastT
        ∨ lastT < skipLoop i fuel cur cutoff lastT := by
  intro fuel
  induction fuel with
  | zero =>
    intro cur cutoff lastT hfuel
    simp only [skipLoop]
    omega
  | succ fuel ih =>
    intro cur cutoff lastT hfuel
    simp only [skipLoop]
    by_cases h : cur < cutoff ∧ cur ≤ lastT
    · rw [if_pos h]; exact ih _ _ _ (by omega)
    · rw [if_neg h]; omega

/-- A slot appears in a window's output iff its start is a visited
candidate, its capacity is the computed remaining capacity, and that
capacity admits the requested party size. -/
theorem mem_windowService_slots {sw : ServiceWindow} {date today now g : Nat}
    {rs : List Reservation} {slot : Slot} :
    slot ∈ (windowService date today now g rs sw).slots ↔
      slot.start_at ∈ windowCands sw date today now
        ∧ slot.available_capacity = availAt sw rs slot.start_at
        ∧ (g : Int) ≤ availAt sw rs slot.start_at := by
  unfold windowService windowCands
  simp only [slotsLoop_eq_filterMap, List.mem_filterMap]
  constructor
  · rintro ⟨s, hs, hemit⟩
    unfold emitSlot at hemit
    split_ifs at hemit with hle
    · cases hemit
      exact ⟨hs, rfl, hle⟩
  · rintro ⟨hmem, hcap, hle⟩
    cases slot with
    | mk s a =>
      dsimp only at hmem hcap hle
      refine ⟨s, hmem, ?_⟩
      unfold emitSlot
      rw [if_pos hle, hcap]

/-- Every entry of the response's `services` array is the slot
computation of one window matching the date's weekday. -/
theorem mem_services {date today now g : Nat} {st : Store} {svc : ServiceAvail} :
    svc ∈ (computeAvailability date today now g st).services →
    ∃ sw, sw ∈ matchingFilter st date
      ∧ svc = windowService date today now g (dbSelectDayReservations date st).1 sw := by
  intro hsvc
  unfold computeAvailability availabilityCall dbSelectClosureExists dbSelectWindows at hsvc
  dsimp only at hsvc
  by_cases hc : st.closures.contains date = true
  · rw [if_pos hc] at hsvc
    simp at hsvc
  · rw [if_neg hc] at hsvc
    by_cases he : (List.insertionSort swLE (matchingFilter st date)).isEmpty = true
    · rw [if_pos he] at hsvc
      simp at hsvc
    · rw [if_neg he] at hsvc
      simp only [List.mem_map] at hsvc
      obtain ⟨sw, hsw, heq⟩ := hsvc
      exact ⟨sw, (List.mem_insertionSort swLE).mp hsw, heq.symm⟩

/-- Conversely, a matching window's computation appears in the response's
`services` array whenever the date is not closed. -/
theorem windowService_mem_services (date today now g : Nat) {st : Store}
    {sw : ServiceWindow} (hc : st.closures.contains date = false)
    (hsw : sw ∈ matchingFilter st date) :
    windowService date today now g (dbSelectDayReservations date st).1 sw
      ∈ (computeAvailability date today now g st).services := by
  unfold computeAvailability availabilityCall dbSelectClosureExists dbSelectWindows
  dsimp only
  have hmem : sw ∈ List.insertionSort swLE (matchingFilter st date) :=
    (List.mem_insertionSort swLE).mpr hsw
  have he : ¬(List.insertionSort swLE (matchingFilter st date)).isEmpty = true := by
    cases h : List.insertionSort swLE (matchingFilter st date) with
    | nil => rw [h] at hmem; cases hmem
    | cons a l => simp [h]
  rw [if_neg (by simpa using hc), if_neg he]
  simp only [List.mem_map]
  exact ⟨sw, hmem, rfl⟩

/-! ### Lemmas about occupancy sums -/

/-- When every confirmed reservation of the store starts within day
`date`, the loop's occupancy over the day-bounded confirmed snapshot
equals the spec's sum over all confirmed reservations of the store. -/
theorem capacityTaken_filter_eq_specOccupied (sname : String) (lo hi dlo dhi : Nat) :
    ∀ rs : List Reservation,
    (∀ r ∈ rs, r.status = "confirmed" → dlo ≤ r.start_at ∧ r.start_at ≤ dhi) →
    capacityTaken sname lo hi
      (rs.filter (fun r => dlo ≤ r.start_at && r.start_at ≤ dhi && r.status == "confirmed"))
      = specOccupied sname lo hi rs := by
  intro rs
  induction rs with
  | nil => intro _; rfl
  | cons r rs ih =>
    intro hday
    have hday_r := fun h => hday r (List.mem_cons_self r rs) h
    have ih' := ih (fun x hx h => hday x (List.mem_cons_of_mem r hx) h)
    rw [List.filter_cons]
    by_cases hsel : (dlo ≤ r.start_at ∧ r.start_at ≤ dhi)
        ∧ r.status = "confirmed"
    · rw [if_pos (by simp [hsel.1.1, hsel.1.2, hsel.2])]
      unfold capacityTaken specOccupied
      rw [ih']
      by_cases hover : r.service_name = sname ∧ r.start_at < hi ∧ r.end_at > lo
      · rw [if_pos hover, if_pos ⟨hsel.2, hover.1, hover.2.1, hover.2.2⟩]
      · rw [if_neg hover, if_neg (by
          rintro ⟨_, h1, h2, h3⟩
          exact hover ⟨h1, h2, h3⟩)]
    · have hnc : ¬(r.status = "confirmed") := by
        intro hcstat
        exact hsel ⟨hday_r hcstat, hcstat⟩
      rw [if_neg (by simp [hnc])]
      unfold specOccupied
      rw [ih']
      rw [if_neg (by rintro ⟨h1, _⟩; exact hnc h1)]
      omega

/-- Specialization to the reservations SELECT of the availability
handler. -/
theorem capacityTaken_day_eq_specOccupied {st : Store} {date : Nat}
    (sname : String) (lo hi : Nat)
    (hday : ∀ r ∈ st.reservations, r.status = "confirmed" →
      1440 * date ≤ r.start_at ∧ r.start_at ≤ 1440 * date + 1439) :
    capacityTaken sname lo hi (dbSelectDayReservations date st).1
      = specOccupied sname lo hi st.reservations :=
  capacityTaken_filter_eq_specOccupied sname lo hi (1440 * date)
    (1440 * date + 1439) st.reservations hday

/-- The covers present at one instant of `[lo, hi)` are among the covers
overlapping `[lo, hi)`. -/
theorem specOccupiedAt_le_specOccupied (sname : String) {t lo hi : Nat}
    (h1 : lo ≤ t) (h2 : t < hi) :
    ∀ bs, specOccupiedAt sname t bs ≤ specOccupied sname lo hi bs := by
  intro bs
  induction bs with
  | nil => simp [specOccupiedAt, specOccupied]
  | cons b bs ih =>
    unfold specOccupiedAt specOccupied
    by_cases hA : b.status = "confirmed" ∧ b.service_name = sname
        ∧ b.start_at ≤ t ∧ t < b.end_at
    · rw [if_pos hA, if_pos ⟨hA.1, hA.2.1, by omega, by omega⟩]
      omega
    · rw [if_neg hA]
      split_ifs with hB
      · omega
      · omega

/-- The SQL `WHERE` clause of `get_capacity_taken` is the spec's
half-open-overlap sum over confirmed bookings of the service. -/
theorem get_capacity_taken_eq_specOccupied (p : String) (lo hi : Nat) :
    ∀ rs, get_capacity_taken p lo hi rs = specOccupied p lo hi rs := by
  intro rs
  induction rs with
  | nil => rfl
  | cons r rs ih =>
    unfold get_capacity_taken specOccupied
    rw [ih]
    congr 1
    refine if_congr ?_ rfl rfl
    constructor
    · rintro ⟨h1, h2, h3, h4⟩; exact ⟨h2, h1, h3, h4⟩
    · rintro ⟨h2, h1, h3, h4⟩; exact ⟨h1, h2, h3, h4⟩

/-- `book_reservation` only writes the reservations table: closures and
service windows come out unchanged on every path. -/
theorem book_reservation_keeps_tables (p : String) (s g : Nat)
    (c rid : String) (st : Store) :
    ((book_reservation p s g c rid st).2.closures = st.closures)
    ∧ ((book_reservation p s g c rid st).2.service_windows
        = st.service_windows) := by
  unfold book_reservation
  dsimp only
  split_ifs with h1
  · exact ⟨rfl, rfl⟩
  · cases hf : st.service_windows.find?
        (fun w => w.name == p && w.dow == s / 1440 % 7 && w.is_active) with
    | none => exact ⟨rfl, rfl⟩
    | some w =>
      dsimp only
      split_ifs <;> exact ⟨rfl, rfl⟩

/-- One serialized execution of `book_reservation` keeps the per-instant
occupancy of the service within the capacity of the window governing the
attempt's date. -/
theorem book_reservation_preserves (sname : String) (d : Nat)
    (w0 : ServiceWindow) (aStart aGuests : Nat) (c rid : String) (st : Store)
    (hfind : st.service_windows.find?
        (fun w => w.name == sname && w.dow == d % 7 && w.is_active) = some w0)
    (hdate : aStart / 1440 = d)
    (hinv : ∀ t, specOccupiedAt sname t st.reservations ≤ w0.capacity) :
    ∀ t, specOccupiedAt sname t
        (book_reservation sname aStart aGuests c rid st).2.reservations
      ≤ w0.capacity := by
  intro t
  unfold book_reservation
  dsimp only
  split_ifs with h1
  · exact hinv t
  · rw [hdate, hfind]
    dsimp only
    split_ifs with h2 h3
    · exact hinv t
    · exact hinv t
    · unfold specOccupiedAt
      dsimp only
      by_cases hcov : "confirmed" = "confirmed" ∧ sname = sname
          ∧ aStart ≤ t ∧ t < aStart + w0.meal_duration
      · rw [if_pos hcov]
        have hle := specOccupiedAt_le_specOccupied sname hcov.2.2.1 hcov.2.2.2
          st.reservations
        rw [← get_capacity_taken_eq_specOccupied] at hle
        omega
      · rw [if_neg hcov]
        have := hinv t
        omega

/-! ### Claim theorems -/

/-- C7: the availability computation has no side effects — it returns the
store unchanged — and is idempotent: a second call on the resulting store
returns the identical response. -/
theorem availability_pure_idempotent (date today now g : Nat) (st : Store) :
    (availabilityCall date today now g st).2 = st
    ∧ (availabilityCall date today now g
        ((availabilityCall date today now g st).2)).1
      = (availabilityCall date today now g st).1 := by
  have h2 : (availabilityCall date today now g st).2 = st := by
    unfold availabilityCall dbSelectClosureExists dbSelectWindows dbSelectDayReservations
    dsimp only
    split_ifs <;> rfl
  exact ⟨h2, by rw [h2]⟩

/-- C4: a date with a closure yields an empty services list and the
closed message regardless of the service windows; a date whose weekday
has no matching active window likewise yields an empty list and a closed
message. -/
theorem closed_or_windowless_date_empty (st : Store) (date today now g : Nat) :
    (st.closures.contains date = true →
      computeAvailability date today now g st
        = { date := date, services := []
            message := some "Restaurant fermé cette date" })
    ∧ (st.closures.contains date = false → matchingFilter st date = [] →
      computeAvailability date today now g st
        = { date := date, services := []
            message := some "Restaurant fermé ce jour" }) := by
  constructor
  · intro hc
    unfold computeAvailability availabilityCall dbSelectClosureExists
    dsimp only
    rw [if_pos hc]
  · intro hc hm
    unfold computeAvailability availabilityCall dbSelectClosureExists dbSelectWindows
    dsimp only
    rw [if_neg (by simpa using hc), hm]
    rfl

/-- Witness for C4: day 5 is closed in a store that still has an active
window for its weekday; and on the open store, weekday 3 has no window. -/
theorem closed_or_windowless_date_empty_witness :
    computeAvailability 5 0 0 2
        { closures := [5], service_windows := [exampleWindowMon]
          reservations := [] }
      = { date := 5, services := [], message := some "Restaurant fermé cette date" }
    ∧ computeAvailability 3 0 0 2 exampleStore
      = { date := 3, services := [], message := some "Restaurant fermé ce jour" } :=
  ⟨(closed_or_windowless_date_empty
      { closures := [5], service_windows := [exampleWindowMon], reservations := [] }
      5 0 0 2).1 (by decide),
   (closed_or_windowless_date_empty exampleStore 3 0 0 2).2 (by decide) (by decide)⟩

/-- C5: away from today, the candidate starts of a window are exactly the
arithmetic progression `start_time, start_time + slot_interval, …` capped
at `last_reservation_time`; in particular a grid point equal to
`last_reservation_time` is enumerated and one `slot_interval` past it is
not. -/
theorem slot_enumeration_grid (sw : ServiceWindow) (date today now : Nat)
    (hi : 0 < sw.slot_interval) (hnt : ¬date = today) :
    (∀ s, s ∈ windowCands sw date today now ↔
        ((∃ k, s = 1440 * date + sw.start_time + k * sw.slot_interval)
          ∧ s ≤ 1440 * date + sw.last_reservation_time))
    ∧ ((∃ k, 1440 * date + sw.last_reservation_time
          = 1440 * date + sw.start_time + k * sw.slot_interval) →
        1440 * date + sw.last_reservation_time ∈ windowCands sw date today now)
    ∧ 1440 * date + sw.last_reservation_time + sw.slot_interval
        ∉ windowCands sw date today now := by
  have hchar : ∀ s, s ∈ windowCands sw date today now ↔
      ((∃ k, s = 1440 * date + sw.start_time + k * sw.slot_interval)
        ∧ s ≤ 1440 * date + sw.last_reservation_time) := by
    intro s
    unfold windowCands firstCandidate
    rw [if_neg hnt]
    exact mem_candidates hi (Nat.le_refl _)
  refine ⟨hchar, ?_, ?_⟩
  · intro hk
    exact (hchar _).mpr ⟨hk, Nat.le_refl _⟩
  · intro hmem
    have := ((hchar _).mp hmem).2
    omega

/-- Witness for C5: for the dinner window on day 0 (today being day 1)
the last booking time 20:30 is enumerated and 21:00 is not. -/
theorem slot_enumeration_grid_witness :
    1230 ∈ windowCands exampleWindow 0 1 0
    ∧ 1260 ∉ windowCands exampleWindow 0 1 0 :=
  ⟨(slot_enumeration_grid exampleWindow 0 1 0 (by decide) (by decide)).2.1
      ⟨3, by decide⟩,
   (slot_enumeration_grid exampleWindow 0 1 0 (by decide) (by decide)).2.2⟩

/-- C2: for every slot a window contributes to the availability response,
the capacity charged against its start `s` is the sum of `party_size`
over all confirmed bookings of the same service overlapping
`[s, s + meal_duration)` half-openly, and `available_capacity` is the
window's capacity minus that sum.  The hypothesis `hday` delimits the
snapshot to the requested day, matching the handler's day-bounded
SELECT. -/
theorem availability_capacity_eq_spec_sum (st : Store)
    (date today now g : Nat) (sw : ServiceWindow) (slot : Slot)
    (hday : ∀ r ∈ st.reservations, r.status = "confirmed" →
      1440 * date ≤ r.start_at ∧ r.start_at ≤ 1440 * date + 1439)
    (hsw : sw ∈ matchingFilter st date)
    (hslot : slot ∈ (windowService date today now g
        (dbSelectDayReservations date st).1 sw).slots) :
    (st.closures.contains date = false →
      windowService date today now g (dbSelectDayReservations date st).1 sw
        ∈ (computeAvailability date today now g st).services)
    ∧ slot.available_capacity
        = (sw.capacity : Int)
          - (specOccupied sw.name slot.start_at (slot.start_at + sw.meal_duration)
              st.reservations : Int) := by
  constructor
  · intro hc
    exact windowService_mem_services date today now g hc hsw
  · have h := mem_windowService_slots.mp hslot
    rw [h.2.1]
    unfold availAt
    rw [capacityTaken_day_eq_specOccupied sw.name _ _ hday]

/-- Witness for C2: with a confirmed 19:00-20:00 booking for 2, the
19:30 slot is charged 2 covers (8 of 10 remain) and the 20:00 slot is
charged none (all 10 remain) — half-open overlap. -/
theorem availability_capacity_eq_spec_sum_witness :
    ((8 : Int)
        = (10 : Int) - (specOccupied "soir" 1170 1230 exampleStore.reservations : Int))
    ∧ ((10 : Int)
        = (10 : Int) - (specOccupied "soir" 1200 1260 exampleStore.reservations : Int)) :=
  ⟨(availability_capacity_eq_spec_sum exampleStore 0 1 0 4 exampleWindow
      ⟨1170, 8⟩ (by decide) (by decide) (by decide)).2,
   (availability_capacity_eq_spec_sum exampleStore 0 1 0 4 exampleWindow
      ⟨1200, 10⟩ (by decide) (by decide) (by decide)).2⟩

/-- C3: a slot is emitted for a window exactly when its start is a
visited candidate and its remaining capacity is at least the requested
party size; consequently every slot present anywhere in the availability
response satisfies `available_capacity ≥ guests`, and no undersized slot
appears in any form. -/
theorem slot_emitted_iff_enough_capacity (date today now g : Nat) (st : Store)
    (sw : ServiceWindow) (rs : List Reservation) (s : Nat) (a : Int) :
    ((⟨s, a⟩ : Slot) ∈ (windowService date today now g rs sw).slots ↔
      s ∈ windowCands sw date today now ∧ a = availAt sw rs s
        ∧ (g : Int) ≤ availAt sw rs s)
    ∧ (∀ svc ∈ (computeAvailability date today now g st).services,
        ∀ slot ∈ svc.slots, (g : Int) ≤ slot.available_capacity) := by
  constructor
  · exact mem_windowService_slots
  · intro svc hsvc slot hslot
    obtain ⟨sw', _, rfl⟩ := mem_services hsvc
    have h := mem_windowService_slots.mp hslot
    rw [h.2.1]
    exact h.2.2

/-- Witness for C3: with 4 guests the 19:30 slot (8 seats left) is
emitted, and in the full response every slot has at least 4 seats. -/
theorem slot_emitted_iff_enough_capacity_witness :
    (⟨1170, 8⟩ : Slot)
      ∈ (windowService 0 1 0 4 (dbSelectDayReservations 0 exampleStore).1
          exampleWindow).slots
    ∧ (4 : Int) ≤ (8 : Int) :=
  ⟨(slot_emitted_iff_enough_capacity 0 1 0 4 exampleStore exampleWindow
        (dbSelectDayReservations 0 exampleStore).1 1170 8).1.mpr
      ⟨by decide, by decide, by decide⟩,
   (slot_emitted_iff_enough_capacity 0 1 0 4 exampleStore exampleWindow
        (dbSelectDayReservations 0 exampleStore).1 1170 8).2
      { name := "soir", display_name := "Dîner"
        slots := [⟨1140, 8⟩, ⟨1170, 8⟩, ⟨1200, 10⟩, ⟨1230, 10⟩] }
      (by decide) ⟨1170, 8⟩ (by decide)⟩

/-- C6: when the requested date is today, every slot of the response
starts no earlier than now plus the 60-minute buffer, and its start still
lies on the window's `start_time + k * slot_interval` grid — the first
offered slot is rounded forward to a slot boundary, never emitted as a
partial slot. -/
theorem today_slots_respect_buffer (st : Store) (date now g : Nat)
    (svc : ServiceAvail) (slot : Slot)
    (hpos : ∀ sw ∈ matchingFilter st date, 0 < sw.slot_interval)
    (hsvc : svc ∈ (computeAvailability date date now g st).services)
    (hslot : slot ∈ svc.slots) :
    now + 60 ≤ slot.start_at
    ∧ ∃ sw, sw ∈ matchingFilter st date ∧ svc.name = sw.name
        ∧ ∃ k, slot.start_at = 1440 * date + sw.start_time + k * sw.slot_interval := by
  obtain ⟨sw, hsw, rfl⟩ := mem_services hsvc
  have hislot := mem_windowService_slots.mp hslot
  have hmem := hislot.1
  have hipos := hpos sw hsw
  unfold windowCands firstCandidate at hmem
  rw [if_pos rfl] at hmem
  obtain ⟨⟨k, hk⟩, hle⟩ := (mem_candidates hipos (Nat.le_refl _)).mp hmem
  obtain ⟨j, hj⟩ := skipLoop_grid sw.slot_interval
    (1440 * date + sw.last_reservation_time + 1 - (1440 * date + sw.start_time))
    (1440 * date + sw.start_time) (now + 60) (1440 * date + sw.last_reservation_time)
  have hexit := skipLoop_exit hipos
    (1440 * date + sw.last_reservation_time + 1 - (1440 * date + sw.start_time))
    (1440 * date + sw.start_time) (now + 60)
    (1440 * date + sw.last_reservation_time) (Nat.le_refl _)
  constructor
  · rcases hexit with hcut | hpast
    · have : 0 ≤ k * sw.slot_interval := Nat.zero_le _
      omega
    · exfalso
      have : 0 ≤ k * sw.slot_interval := Nat.zero_le _
      omega
  · refine ⟨sw, hsw, rfl, j + k, ?_⟩
    rw [hk, hj]
    ring

/-- Witness for C6: on day 1 at 19:00 (buffer until 20:00) the first
offered dinner slot is 20:00, on the half-hour grid. -/
theorem today_slots_respect_buffer_witness :
    (2580 : Nat) + 60 ≤ 2640 :=
  (today_slots_respect_buffer exampleStoreMon 1 2580 4
    { name := "soir", display_name := "Dîner"
      slots := [⟨2640, 10⟩, ⟨2670, 10⟩] }
    ⟨2640, 10⟩ (by decide) (by decide) (by decide)).1

/-- Unfolding one step of a serialized commit sequence. -/
theorem runCommits_cons (sname : String) (a : CommitAttempt)
    (as : List CommitAttempt) (st : Store) :
    runCommits sname (a :: as) st
      = runCommits sname as
          ((book_reservation sname a.p_start_at a.p_guests a.v_code
              a.v_reservation_id st).2) := rfl

/-- C1: under the advisory-lock serialization inside `book_reservation`,
any sequence of commit attempts for one `(date, service_name)` key keeps
the sum of `party_size` over confirmed bookings of the service
overlapping any single instant within the governing window's capacity;
and at remaining capacity 4, two commits of party_size 3 for the
identical slot see exactly one success, the other rejected with the
insufficient-capacity reason `Capacité insuffisante pour ce créneau`. -/
theorem no_overbooking_and_one_winner :
    (∀ (sname : String) (d : Nat) (w0 : ServiceWindow)
        (attempts : List CommitAttempt) (st : Store),
      st.service_windows.find?
          (fun w => w.name == sname && w.dow == d % 7 && w.is_active) = some w0 →
      (∀ a ∈ attempts, a.p_start_at / 1440 = d) →
      (∀ t, specOccupiedAt sname t st.reservations ≤ w0.capacity) →
      ∀ t, specOccupiedAt sname t (runCommits sname attempts st).reservations
        ≤ w0.capacity)
    ∧ (book_reservation "soir" 1140 3 "ABCDEF" "r1" capFourStore).1
        = { ok := true, code := some "ABCDEF", reservation_id := some "r1"
            error := none }
    ∧ (book_reservation "soir" 1140 3 "GHJKLM" "r2"
        (book_reservation "soir" 1140 3 "ABCDEF" "r1" capFourStore).2).1
      = { ok := false, code := none, reservation_id := none
          error := some "Capacité insuffisante pour ce créneau" } := by
  refine ⟨?_, by decide, by decide⟩
  intro sname d w0 attempts
  induction attempts with
  | nil => intro st _ _ hinv t; exact hinv t
  | cons a as ih =>
    intro st hfind hdates hinv t
    rw [runCommits_cons]
    have hkeep := book_reservation_keeps_tables sname a.p_start_at a.p_guests
      a.v_code a.v_reservation_id st
    apply ih
    · rw [hkeep.2]; exact hfind
    · intro x hx; exact hdates x (List.mem_cons_of_mem a hx)
    · exact book_reservation_preserves sname d w0 a.p_start_at a.p_guests
        a.v_code a.v_reservation_id st hfind
        (hdates a (List.mem_cons_self a as)) hinv

/-- Witness for C1: starting from an empty ledger under the capacity-4
dinner window, after the two serialized commits of party 3 the occupancy
at 19:10 is still within capacity (only one of the commits landed). -/
theorem no_overbooking_and_one_winner_witness :
    specOccupiedAt "soir" 1150 capFourStore.reservations ≤ 4
    ∧ specOccupiedAt "soir" 1150
        (runCommits "soir"
          [⟨1140, 3, "ABCDEF", "r1"⟩, ⟨1140, 3, "GHJKLM", "r2"⟩]
          capFourStore).reservations ≤ 4 :=
  ⟨by decide,
   no_overbooking_and_one_winner.1 "soir" 0 { exampleWindow with capacity := 4 }
     [⟨1140, 3, "ABCDEF", "r1"⟩, ⟨1140, 3, "GHJKLM", "r2"⟩] capFourStore
     (by decide) (by decide)
     (fun t => by simp [capFourStore, specOccupiedAt]) 1150⟩

/-- C8: once the RPC reports a committed booking, the handler's response
carries the confirmation code and booking id and does not depend on the
email dispatch outcome; a dispatch failure is only logged and the
committed ledger is untouched. -/
theorem email_failure_never_surfaces (result : RpcRow)
    (ep hk f1 f2 : Bool) (st : BookState) (hok : result.ok = true) :
    (finishBooking result ep hk f1 st).1
        = { ok := true, code := some result.code
            reservation_id := some result.reservation_id
            error := none, status := 200 }
    ∧ (finishBooking result ep hk f1 st).2.bookings = st.bookings
    ∧ (finishBooking result ep hk f1 st).1 = (finishBooking result ep hk f2 st).1 := by
  have hne : ¬¬(result.ok = true) := by simp [hok]
  unfold finishBooking
  rw [if_neg hne, if_neg hne]
  dsimp only
  refine ⟨rfl, ?_, rfl⟩
  split_ifs <;> rfl

/-- Witness for C8: a concrete successful row with a failing dispatch
still yields the success response and the untouched ledger. -/
theorem email_failure_never_surfaces_witness :
    (finishBooking exampleRpcRow true true true exampleBookState).1
        = { ok := true, code := some "ABC234", reservation_id := some "r1"
            error := none, status := 200 }
    ∧ (finishBooking exampleRpcRow true true true exampleBookState).2.bookings
        = exampleBookState.bookings
    ∧ (finishBooking exampleRpcRow true true true exampleBookState).1
        = (finishBooking exampleRpcRow true true false exampleBookState).1 :=
  email_failure_never_surfaces exampleRpcRow true true true false
    exampleBookState (by decide)

/-- C10: on an open date with at least one matching active window, the
response has no closed message and exactly one service entry per matching
window; the entries follow the windows sorted by `start_time`; and a
window all of whose slots fail the capacity filter still contributes an
entry with an empty slots list. -/
theorem services_one_per_window_ordered (st : Store) (date today now g : Nat)
    (hc : st.closures.contains date = false)
    (hne : matchingFilter st date ≠ []) :
    (computeAvailability date today now g st).message = none
    ∧ (computeAvailability date today now g st).services.length
        = (matchingFilter st date).length
    ∧ (computeAvailability date today now g st).services
        = (List.insertionSort swLE (matchingFilter st date)).map
            (windowService date today now g (dbSelectDayReservations date st).1)
    ∧ (List.insertionSort swLE (matchingFilter st date)).Pairwise swLE
    ∧ (List.insertionSort swLE (matchingFilter st date)).Perm (matchingFilter st date)
    ∧ ∀ sw ∈ matchingFilter st date,
        (windowService date today now g (dbSelectDayReservations date st).1 sw).slots
            = [] →
          ({ name := sw.name, display_name := sw.display_name, slots := [] }
              : ServiceAvail)
            ∈ (computeAvailability date today now g st).services := by
  have he : ¬(List.insertionSort swLE (matchingFilter st date)).isEmpty = true := by
    intro h
    have hnil : List.insertionSort swLE (matchingFilter st date) = [] :=
      List.isEmpty_iff.mp h
    have hp := List.perm_insertionSort swLE (matchingFilter st date)
    rw [hnil] at hp
    exact hne hp.nil_eq.symm
  have hresp : computeAvailability date today now g st
      = { date := date
          services := (List.insertionSort swLE (matchingFilter st date)).map
            (windowService date today now g (dbSelectDayReservations date st).1)
          message := none } := by
    unfold computeAvailability availabilityCall dbSelectClosureExists dbSelectWindows
    dsimp only
    rw [if_neg (by simpa using hc), if_neg he]
  refine ⟨by rw [hresp], ?_, by rw [hresp], ?_, List.perm_insertionSort swLE _, ?_⟩
  · rw [hresp]
    exact (List.length_map _ _).trans (List.length_insertionSort _ _)
  · exact List.sorted_insertionSort swLE _
  · intro sw hsw hempty
    have hmem := windowService_mem_services date today now g hc hsw
    have hval : windowService date today now g (dbSelectDayReservations date st).1 sw
        = { name := sw.name, display_name := sw.display_name, slots := [] } := by
      unfold windowService at hempty ⊢
      dsimp only at hempty ⊢
      rw [hempty]
    rw [hval] at hmem
    exact hmem

/-- Witness for C10: the store lists dinner before lunch; the response is
open, its entries are [lunch, dinner] by start time, and the fully booked
dinner window still appears, with an empty slots list. -/
theorem services_one_per_window_ordered_witness :
    (computeAvailability 0 5 0 2 exampleStoreTwo).message = none
    ∧ ({ name := "soir", display_name := "Dîner", slots := [] } : ServiceAvail)
        ∈ (computeAvailability 0 5 0 2 exampleStoreTwo).services :=
  ⟨(services_one_per_window_ordered exampleStoreTwo 0 5 0 2
      (by decide) (by decide)).1,
   (services_one_per_window_ordered exampleStoreTwo 0 5 0 2
      (by decide) (by decide)).2.2.2.2.2 exampleWindow (by decide) (by decide)⟩

/-- Counterexample for C9 as stated: the normalized phone "aaaaaaaaaa"
contains zero digits — fewer than 10 — yet the request is not rejected
with the phone reason; it proceeds to the RPC with that phone (the code
tests the length of the normalized string, not its digit count).  Also,
a request with an empty name and a short phone is rejected with the
missing-fields reason, not the phone-specific one. -/
theorem phone_digits_claim_counterexample :
    ((phoneNormalize "aaaaaaaaaa").data.countP (fun c => c.isDigit)) < 10
    ∧ proceedPhone (validateBooking 0 exampleRequest) = some "aaaaaaaaaa"
    ∧ validateBooking 0 exampleRequest
        ≠ .reject "Numéro de téléphone invalide" 400
    ∧ (phoneNormalize "061").length < 10
    ∧ validateBooking 0 { exampleRequest with name := "", phone := "061" }
        = .reject "Champs requis manquants" 400 :=
  ⟨by decide, by decide, by decide, by decide, by decide⟩

/-- C9 (amended): the phone is normalized by stripping whitespace,
dashes and dots; among requests clearing the prior validations, the
request is rejected with the phone-specific reason exactly when the
normalized phone has fewer than 10 characters (not digits); and whenever
the request proceeds, the normalized phone is what is passed to the
booking insert. -/
theorem phone_rule_normalized_length (now : Int) (req : BookingRequest) :
    (∀ args, validateBooking now req = .proceed args →
        args.p_phone = phoneNormalize req.phone)
    ∧ (validateBooking now req = .reject "Numéro de téléphone invalide" 400 ↔
        prePhoneChecksPass now req ∧ (phoneNormalize req.phone).length < 10) := by
  unfold validateBooking prePhoneChecksPass
  by_cases h1 : (req.start_at = "" ∨ req.service_name = "" ∨ req.guests = 0
      ∨ req.name = "" ∨ req.phone = "")
  · rw [if_pos h1]
    refine ⟨fun args h => ValidationResult.noConfusion h, ?_, ?_⟩
    · intro h; simp at h
    · rintro ⟨hpre, _⟩; exact absurd h1 hpre.1
  · rw [if_neg h1]
    by_cases h2 : ¬(req.service_name = "midi" ∨ req.service_name = "soir")
    · rw [if_pos h2]
      refine ⟨fun args h => ValidationResult.noConfusion h, ?_, ?_⟩
      · intro h; simp at h
      · rintro ⟨hpre, _⟩; exact absurd hpre.2.1 h2
    · rw [if_neg h2]
      by_cases h3 : (req.guests < 1 ∨ req.guests > 20)
      · rw [if_pos h3]
        refine ⟨fun args h => ValidationResult.noConfusion h, ?_, ?_⟩
        · intro h; simp at h
        · rintro ⟨hpre, _⟩; exact absurd h3 hpre.2.2.1
      · rw [if_neg h3]
        cases hsp : req.start_at_parsed with
        | none =>
          dsimp only
          refine ⟨fun args h => ValidationResult.noConfusion h, ?_, ?_⟩
          · intro h; simp at h
          · rintro ⟨hpre, _⟩
            obtain ⟨d, hd, _⟩ := hpre.2.2.2
            exact Option.noConfusion hd
        | some d =>
          dsimp only
          by_cases h5 : d < now
          · rw [if_pos h5]
            refine ⟨fun args h => ValidationResult.noConfusion h, ?_, ?_⟩
            · intro h; simp at h
            · rintro ⟨hpre, _⟩
              obtain ⟨d', hd', h5', _⟩ := hpre.2.2.2
              cases hd'
              exact absurd h5 h5'
          · rw [if_neg h5]
            by_cases h6 : d > now + 43200
            · rw [if_pos h6]
              refine ⟨fun args h => ValidationResult.noConfusion h, ?_, ?_⟩
              · intro h; simp at h
              · rintro ⟨hpre, _⟩
                obtain ⟨d', hd', _, h6'⟩ := hpre.2.2.2
                cases hd'
                exact absurd h6 h6'
            · rw [if_neg h6]
              by_cases hlen : (phoneNormalize req.phone).length < 10
              · rw [if_pos hlen]
                refine ⟨fun args h => ValidationResult.noConfusion h, ?_, ?_⟩
                · intro _
                  exact ⟨⟨h1, not_not.mp h2, h3, d, rfl, h5, h6⟩, hlen⟩
                · intro _; rfl
              · rw [if_neg hlen]
                by_cases h8 : (match req.email with
                    | some e => e ≠ "" && !emailMatches e
                    | none => false) = true
                · rw [if_pos h8]
                  refine ⟨fun args h => ValidationResult.noConfusion h, ?_, ?_⟩
                  · intro h; simp at h
                  · rintro ⟨_, hl⟩; exact absurd hl hlen
                · rw [if_neg h8]
                  refine ⟨?_, ?_, ?_⟩
                  · intro args h
                    cases h
                    rfl
                  · intro h; exact ValidationResult.noConfusion h
                  · rintro ⟨_, hl⟩; exact absurd hl hlen

/-- Witness for C9 (amended): "06 12 34" normalizes to six characters
and is rejected with the phone reason. -/
theorem phone_rule_normalized_length_witness :
    validateBooking 0 shortPhoneRequest
      = .reject "Numéro de téléphone invalide" 400 :=
  (phone_rule_normalized_length 0 shortPhoneRequest).2.mpr
    ⟨by decide, by decide⟩

end LaJardinerie
